import Mathlib

/-! Verification of the cart store of the appsevenmenu repository
(src/frontend/store/cartStore.ts).

The store keeps an ordered list of cart items.  Item identifiers and
display names are strings, prices are JavaScript numbers modelled as
rationals, and quantities are modelled as integers (every call site in
the repository passes an integer quantity: addItem sets 1, the screens
call updateQuantity with item.quantity plus or minus 1).

Persistence goes through localStorage with JSON serialization; the
stored value is modelled at the level of parsed JSON values, since
JSON.parse inverts JSON.stringify on the values the store writes.
-/

/-- One entry of the cart: the CartItem interface of cartStore.ts.
`image` is an optional field. -/
structure CartItem where
  id : String
  name : String
  price : Rat
  quantity : Int
  image : Option String
deriving DecidableEq, Repr

/-- The argument of addItem: a CartItem without its quantity field
(Omit over CartItem dropping quantity). -/
structure NewItem where
  id : String
  name : String
  price : Rat
  image : Option String
deriving DecidableEq, Repr

/-- addItem of cartStore.ts: if a line with the candidate id already
exists, increment its quantity by 1, otherwise append a fresh line
with quantity 1. -/
def addItem (items : List CartItem) (item : NewItem) : List CartItem :=
  if (items.find? (fun i => i.id == item.id)).isSome then
    items.map (fun i =>
      if i.id == item.id then { i with quantity := i.quantity + 1 } else i)
  else
    items ++ [{ id := item.id, name := item.name, price := item.price,
                quantity := 1, image := item.image }]

/-- removeItem of cartStore.ts: keep the lines whose id differs. -/
def removeItem (items : List CartItem) (id : String) : List CartItem :=
  items.filter (fun i => !(i.id == id))

/-- updateQuantity of cartStore.ts: a non-positive quantity removes the
line, otherwise the matching line's quantity is set to the given value. -/
def updateQuantity (items : List CartItem) (id : String) (quantity : Int) :
    List CartItem :=
  if quantity ≤ 0 then
    removeItem items id
  else
    items.map (fun i => if i.id == id then { i with quantity := quantity } else i)

/-- getTotalItems of cartStore.ts: reduce over the lines summing quantities. -/
def getTotalItems (items : List CartItem) : Int :=
  items.foldl (fun total item => total + item.quantity) 0

/-- getTotalPrice of cartStore.ts: reduce over the lines summing
price times quantity. -/
def getTotalPrice (items : List CartItem) : Rat :=
  items.foldl (fun total item => total + item.price * (item.quantity : Rat)) 0

/-- One mutation of the cart store. -/
inductive CartOp where
  | add (item : NewItem)
  | remove (id : String)
  | update (id : String) (quantity : Int)
  | clear
deriving DecidableEq, Repr

/-- Apply one mutation; clearCart of cartStore.ts empties the list. -/
def applyOp (items : List CartItem) : CartOp → List CartItem
  | .add item => addItem items item
  | .remove id => removeItem items id
  | .update id quantity => updateQuantity items id quantity
  | .clear => []

/-- A sequence of mutations applied in order. -/
def runOps (items : List CartItem) (ops : List CartOp) : List CartItem :=
  ops.foldl applyOp items

/-- A parsed JSON value, the result of JSON.parse. -/
inductive Json where
  | null
  | bool (b : Bool)
  | num (q : Rat)
  | str (s : String)
  | arr (elems : List Json)
  | obj (fields : List (String × Json))
deriving Repr

/-- What localStorage.getItem followed by JSON.parse can produce for the
cart key: no stored value, a stored string JSON.parse throws on, or a
stored string that parses to a JSON value. -/
inductive StoredValue where
  | absent
  | unparseable
  | parsed (j : Json)
deriving Repr

/-- JSON.stringify of one cart item: JavaScript object fields in
declaration order; an undefined image field is omitted by stringify. -/
def encodeItem (i : CartItem) : Json :=
  .obj ([("id", .str i.id), ("name", .str i.name), ("price", .num i.price),
         ("quantity", .num (i.quantity : Rat))] ++
        (match i.image with
         | some s => [("image", .str s)]
         | none => []))

/-- saveCart of cartStore.ts: localStorage.setItem of JSON.stringify of
the items array, modelled as the JSON value the stored string parses
back to. -/
def saveCart (items : List CartItem) : StoredValue :=
  .parsed (.arr (items.map encodeItem))

/-- getStoredCart of cartStore.ts: the empty array when nothing is
stored or JSON.parse throws, otherwise whatever JSON.parse returned —
the code performs no validation of the parsed value. -/
def getStoredCart : StoredValue → Json
  | .absent => .arr []
  | .unparseable => .arr []
  | .parsed j => j

/-- Field access on a parsed JSON object: the first field with the
given key, as JavaScript property lookup sees it. -/
def jsonField (fields : List (String × Json)) (key : String) : Option Json :=
  (fields.find? (fun p => p.1 == key)).map (fun p => p.2)

/-- Reading a JSON value as a string. -/
def asStr : Json → Option String
  | .str s => some s
  | _ => none

/-- Reading a JSON value as a rational number. -/
def asNum : Json → Option Rat
  | .num q => some q
  | _ => none

/-- Reading a JSON value as an integer. -/
def asInt (j : Json) : Option Int :=
  match j with
  | .num q => if q.den = 1 then some q.num else none
  | _ => none

/-- Reading a parsed JSON value as one cart item, the structural shape
the store's consumers rely on. -/
def decodeItem (j : Json) : Option CartItem :=
  match j with
  | .obj fields =>
    match jsonField fields "id", jsonField fields "name",
          jsonField fields "price", jsonField fields "quantity" with
    | some jid, some jname, some jprice, some jqty =>
      match asStr jid, asStr jname, asNum jprice, asInt jqty with
      | some id, some name, some price, some quantity =>
        some { id := id, name := name, price := price, quantity := quantity,
               image := match jsonField fields "image" with
                        | some (.str s) => some s
                        | _ => none }
      | _, _, _, _ => none
    | _, _, _, _ => none
  | _ => none

/-- Reading a parsed JSON value as a full cart. -/
def decodeItems (j : Json) : Option (List CartItem) :=
  match j with
  | .arr elems => elems.mapM decodeItem
  | _ => none

/-- The identifiers the add operations of a sequence would append, in order. -/
def addIds (ops : List CartOp) : List String :=
  ops.filterMap (fun op =>
    match op with
    | .add item => some item.id
    | _ => none)

/-- Sample cart line used to evaluate the theorems on concrete input. -/
def pizzaLine : CartItem :=
  { id := "p1", name := "Pizza", price := 30, quantity := 1, image := none }

/-- Sample cart line with an image and a fractional price. -/
def sodaLine : CartItem :=
  { id := "p2", name := "Soda", price := (11 : Rat) / 2, quantity := 2,
    image := some "soda.png" }

/-- Sample addItem candidate matching pizzaLine. -/
def pizzaNew : NewItem :=
  { id := "p1", name := "Pizza", price := 30, image := none }

/-- Sample addItem candidate with the same id and different fields. -/
def pizzaPromo : NewItem :=
  { id := "p1", name := "Promo", price := 25, image := some "promo.png" }

/-- Sample addItem candidate matching sodaLine. -/
def sodaNew : NewItem :=
  { id := "p2", name := "Soda", price := (11 : Rat) / 2, image := some "soda.png" }

/-! Helper lemmas. -/

/-- The reduce of getTotalItems started at any accumulator. -/
theorem foldl_quantity (items : List CartItem) (a : Int) :
    items.foldl (fun total item => total + item.quantity) a
      = a + (items.map (fun i => i.quantity)).sum := by
  induction items generalizing a with
  | nil => simp
  | cons i t ih => simp [ih, add_assoc]

/-- The reduce of getTotalPrice started at any accumulator. -/
theorem foldl_price (items : List CartItem) (a : Rat) :
    items.foldl (fun total item => total + item.price * (item.quantity : Rat)) a
      = a + (items.map (fun i => i.price * (i.quantity : Rat))).sum := by
  induction items generalizing a with
  | nil => simp
  | cons i t ih => simp [ih, add_assoc]

/-- When no line matches, addItem appends a fresh line with quantity 1. -/
theorem addItem_not_found (items : List CartItem) (c : NewItem)
    (h : ∀ l ∈ items, l.id ≠ c.id) :
    addItem items c
      = items ++ [{ id := c.id, name := c.name, price := c.price,
                    quantity := 1, image := c.image }] := by
  have hf : (items.find? (fun i => i.id == c.id)) = none := by
    apply List.find?_eq_none.mpr
    intro x hx
    simpa using h x hx
  simp [addItem, hf]

/-- When a line matches, addItem keeps the list of identifiers unchanged. -/
theorem addItem_found_ids (items : List CartItem) (c : NewItem)
    (h : ∃ l ∈ items, l.id = c.id) :
    (addItem items c).map (fun i => i.id) = items.map (fun i => i.id) := by
  have hf : (items.find? (fun i => i.id == c.id)).isSome := by
    rcases h with ⟨l, hl, hid⟩
    exact List.find?_isSome.mpr ⟨l, hl, by simp [hid]⟩
  rw [addItem, if_pos hf, List.map_map]
  apply List.map_congr_left
  intro a _
  by_cases h2 : a.id = c.id <;> simp [h2]

/-- addItem preserves distinctness of the identifiers. -/
theorem addItem_nodup (items : List CartItem) (c : NewItem)
    (h : (items.map (fun i => i.id)).Nodup) :
    ((addItem items c).map (fun i => i.id)).Nodup := by
  by_cases hex : ∃ l ∈ items, l.id = c.id
  · rw [addItem_found_ids items c hex]
    exact h
  · push_neg at hex
    rw [addItem_not_found items c hex, List.map_append]
    rw [List.nodup_append]
    refine ⟨h, List.nodup_singleton _, ?_⟩
    intro a ha hb
    rcases List.mem_map.mp ha with ⟨l, hl, rfl⟩
    simp at hb
    exact hex l hl hb

/-- addItem keeps every quantity at least 1. -/
theorem addItem_qpos (items : List CartItem) (c : NewItem)
    (h : ∀ l ∈ items, 1 ≤ l.quantity) :
    ∀ l ∈ addItem items c, 1 ≤ l.quantity := by
  intro l hl
  rw [addItem] at hl
  by_cases hf : (items.find? (fun i => i.id == c.id)).isSome
  · rw [if_pos hf] at hl
    rcases List.mem_map.mp hl with ⟨i, hi, rfl⟩
    have := h i hi
    by_cases h2 : i.id = c.id <;> simp [h2] <;> omega
  · rw [if_neg hf] at hl
    rcases List.mem_append.mp hl with h1 | h2
    · exact h l h1
    · simp at h2
      rw [h2]

/-- removeItem keeps every quantity at least 1. -/
theorem removeItem_qpos (items : List CartItem) (pid : String)
    (h : ∀ l ∈ items, 1 ≤ l.quantity) :
    ∀ l ∈ removeItem items pid, 1 ≤ l.quantity := by
  intro l hl
  exact h l (List.mem_of_mem_filter hl)

/-- updateQuantity keeps every quantity at least 1. -/
theorem updateQuantity_qpos (items : List CartItem) (pid : String) (q : Int)
    (h : ∀ l ∈ items, 1 ≤ l.quantity) :
    ∀ l ∈ updateQuantity items pid q, 1 ≤ l.quantity := by
  intro l hl
  rw [updateQuantity] at hl
  by_cases hq : q ≤ 0
  · rw [if_pos hq] at hl
    exact removeItem_qpos items pid h l hl
  · rw [if_neg hq] at hl
    rcases List.mem_map.mp hl with ⟨i, hi, rfl⟩
    have := h i hi
    by_cases h2 : i.id = pid <;> simp [h2] <;> omega

/-- Every mutation keeps every quantity at least 1. -/
theorem applyOp_qpos (items : List CartItem) (op : CartOp)
    (h : ∀ l ∈ items, 1 ≤ l.quantity) :
    ∀ l ∈ applyOp items op, 1 ≤ l.quantity := by
  cases op with
  | add c => exact addItem_qpos items c h
  | remove pid => exact removeItem_qpos items pid h
  | update pid q => exact updateQuantity_qpos items pid q h
  | clear => intro l hl; simp [applyOp] at hl

/-- Every sequence of mutations keeps every quantity at least 1. -/
theorem runOps_qpos (ops : List CartOp) (items : List CartItem)
    (h : ∀ l ∈ items, 1 ≤ l.quantity) :
    ∀ l ∈ runOps items ops, 1 ≤ l.quantity := by
  induction ops generalizing items with
  | nil => exact h
  | cons op t ih => exact ih (applyOp items op) (applyOp_qpos items op h)

/-- addItem leaves the identifier list a prefix-preserving extension:
either unchanged, or the candidate id appended at the end. -/
theorem addItem_ids_sublist (items : List CartItem) (c : NewItem) :
    List.Sublist ((addItem items c).map (fun i => i.id))
      (items.map (fun i => i.id) ++ [c.id]) := by
  by_cases hex : ∃ l ∈ items, l.id = c.id
  · rw [addItem_found_ids items c hex]
    exact List.sublist_append_left _ _
  · push_neg at hex
    rw [addItem_not_found items c hex, List.map_append]
    exact List.Sublist.refl _

/-- removeItem keeps the surviving identifiers in their original order. -/
theorem removeItem_ids_sublist (items : List CartItem) (pid : String) :
    List.Sublist ((removeItem items pid).map (fun i => i.id))
      (items.map (fun i => i.id)) :=
  (List.filter_sublist items).map (fun i => i.id)

/-- updateQuantity keeps the surviving identifiers in their original order. -/
theorem updateQuantity_ids_sublist (items : List CartItem) (pid : String) (q : Int) :
    List.Sublist ((updateQuantity items pid q).map (fun i => i.id))
      (items.map (fun i => i.id)) := by
  rw [updateQuantity]
  by_cases hq : q ≤ 0
  · rw [if_pos hq]
    exact removeItem_ids_sublist items pid
  · rw [if_neg hq, List.map_map]
    have : ((fun i => i.id) ∘ fun i =>
        if i.id == pid then { i with quantity := q } else i)
          = fun i : CartItem => i.id := by
      funext a
      by_cases h2 : a.id = pid <;> simp [h2]
    rw [this]

/-- One mutation keeps the surviving identifiers in order, appending at
most the added identifier at the end. -/
theorem applyOp_ids_sublist (items : List CartItem) (op : CartOp) :
    List.Sublist ((applyOp items op).map (fun i => i.id))
      (items.map (fun i => i.id) ++ addIds [op]) := by
  cases op with
  | add c => exact addItem_ids_sublist items c
  | remove pid =>
    exact (removeItem_ids_sublist items pid).trans
      (List.sublist_append_left _ _)
  | update pid q =>
    exact (updateQuantity_ids_sublist items pid q).trans
      (List.sublist_append_left _ _)
  | clear => exact List.nil_sublist _

/-- A sequence of mutations keeps the surviving identifiers in
first-insertion order. -/
theorem runOps_ids_sublist (ops : List CartOp) (items : List CartItem) :
    List.Sublist ((runOps items ops).map (fun i => i.id))
      (items.map (fun i => i.id) ++ addIds ops) := by
  induction ops generalizing items with
  | nil => exact List.sublist_append_left _ _
  | cons op t ih =>
    have step := applyOp_ids_sublist items op
    have tail := ih (applyOp items op)
    have h1 : List.Sublist
        ((applyOp items op).map (fun i => i.id) ++ addIds t)
        ((items.map (fun i => i.id) ++ addIds [op]) ++ addIds t) :=
      step.append_right (addIds t)
    have h2 : (items.map (fun i => i.id) ++ addIds [op]) ++ addIds t
        = items.map (fun i => i.id) ++ addIds (op :: t) := by
      cases op <;> simp [addIds, List.filterMap]
    have : runOps items (op :: t) = runOps (applyOp items op) t := rfl
    rw [this]
    exact tail.trans (h2 ▸ h1)

/-- Decoding inverts encoding on one cart item. -/
theorem decodeItem_encodeItem (i : CartItem) : decodeItem (encodeItem i) = some i := by
  obtain ⟨id, name, price, quantity, image⟩ := i
  cases image <;> rfl

/-- Decoding inverts encoding on a full cart. -/
theorem decodeItems_encode (items : List CartItem) :
    decodeItems (.arr (items.map encodeItem)) = some items := by
  rw [decodeItems]
  induction items with
  | nil => rfl
  | cons i t ih =>
    rw [List.map_cons, List.mapM_cons, decodeItem_encodeItem i, ih]
    rfl

/-! Claim theorems. -/

/-- C1 counterexample: from a cart that already holds a line with the
productId, two addItem calls with that productId do not leave quantity 2
(the quantity becomes 3), so the claim fails for arbitrary cart states. -/
theorem addItem_twice_counterexample :
    ¬ ∀ l ∈ addItem (addItem [pizzaLine] pizzaNew) pizzaNew,
        l.id = "p1" → l.quantity = 2 := by
  decide

/-- C1 (amended): for every cart state with no line carrying the
candidate productId, two addItem calls with that productId — the second
call may carry different name, price and image — leave exactly one line
with that productId, with quantity 2 and the first call's name, price
and image. -/
theorem addItem_twice_merges (items : List CartItem) (c₁ c₂ : NewItem)
    (hid : c₂.id = c₁.id) (habs : ∀ l ∈ items, l.id ≠ c₁.id) :
    (addItem (addItem items c₁) c₂).filter (fun l => l.id == c₁.id)
      = [{ id := c₁.id, name := c₁.name, price := c₁.price, quantity := 2,
           image := c₁.image }] := by
  rw [addItem_not_found items c₁ habs]
  set L1 : CartItem :=
    { id := c₁.id, name := c₁.name, price := c₁.price, quantity := 1,
      image := c₁.image } with hL1
  have hf : ((items ++ [L1]).find? (fun i => i.id == c₂.id)).isSome :=
    List.find?_isSome.mpr ⟨L1, by simp, by simp [hL1, hid]⟩
  rw [addItem, if_pos hf, List.map_append]
  have hmap : items.map (fun i =>
      if i.id == c₂.id then { i with quantity := i.quantity + 1 } else i)
        = items := by
    conv_rhs => rw [← List.map_id items]
    apply List.map_congr_left
    intro a ha
    have hne := habs a ha
    simp [hid, hne]
  rw [hmap, List.filter_append]
  have hnil : items.filter (fun l => l.id == c₁.id) = [] := by
    apply List.filter_eq_nil_iff.mpr
    intro a ha
    simpa using habs a ha
  rw [hnil]
  simp [hL1, hid]

/-- C2: after any sequence of mutations from any starting cart, the
total-item and total-price queries equal the sums recomputed over the
current lines. -/
theorem totals_recomputed (start : List CartItem) (ops : List CartOp) :
    getTotalItems (runOps start ops)
      = ((runOps start ops).map (fun i => i.quantity)).sum ∧
    getTotalPrice (runOps start ops)
      = ((runOps start ops).map (fun i => i.price * (i.quantity : Rat))).sum := by
  constructor
  · simpa using foldl_quantity (runOps start ops) 0
  · simpa using foldl_price (runOps start ops) 0

/-- A whole sequence of addItem calls preserves distinct identifiers. -/
theorem foldl_addItem_nodup (news : List NewItem) (start : List CartItem)
    (h : (start.map (fun i => i.id)).Nodup) :
    ((news.foldl addItem start).map (fun i => i.id)).Nodup := by
  induction news generalizing start with
  | nil => exact h
  | cons c t ih => exact ih (addItem start c) (addItem_nodup start c h)

/-- C3: from any cart with distinct productIds — the empty cart
included — any sequence of addItem calls keeps the productIds distinct,
and an addItem whose productId is already present merges, leaving the
identifier list unchanged. -/
theorem addItem_sequences_unique (start : List CartItem) (news : List NewItem)
    (item : NewItem) (h : (start.map (fun i => i.id)).Nodup) :
    ((news.foldl addItem start).map (fun i => i.id)).Nodup ∧
    ((∃ l ∈ start, l.id = item.id) →
      (addItem start item).map (fun i => i.id) = start.map (fun i => i.id)) :=
  ⟨foldl_addItem_nodup news start h, fun hex => addItem_found_ids start item hex⟩

/-- C4: updateQuantity with a non-positive quantity equals removeItem,
so the resulting cart holds no line with that identifier. -/
theorem updateQuantity_nonpos (items : List CartItem) (pid : String) (q : Int)
    (hq : q ≤ 0) :
    updateQuantity items pid q = removeItem items pid ∧
    ∀ l ∈ updateQuantity items pid q, l.id ≠ pid := by
  have h1 : updateQuantity items pid q = removeItem items pid := by
    rw [updateQuantity, if_pos hq]
  refine ⟨h1, ?_⟩
  intro l hl
  rw [h1, removeItem] at hl
  have := List.of_mem_filter hl
  simpa using this

/-- C5: from a cart whose lines all have quantity at least 1, every
single mutation and every sequence of mutations leaves every line with
quantity at least 1. -/
theorem quantities_positive (items : List CartItem) (op : CartOp)
    (ops : List CartOp) (h : ∀ l ∈ items, 1 ≤ l.quantity) :
    (∀ l ∈ applyOp items op, 1 ≤ l.quantity) ∧
    (∀ l ∈ runOps items ops, 1 ≤ l.quantity) :=
  ⟨applyOp_qpos items op h, runOps_qpos ops items h⟩

/-- C6: removeItem on an absent productId and updateQuantity with a
positive quantity on an absent productId both leave the cart unchanged;
in particular updateQuantity never creates a line. -/
theorem absent_id_noop (items : List CartItem) (pid : String) (q : Int)
    (habs : ∀ l ∈ items, l.id ≠ pid) (hq : 1 ≤ q) :
    removeItem items pid = items ∧ updateQuantity items pid q = items := by
  have h1 : removeItem items pid = items := by
    apply List.filter_eq_self.mpr
    intro a ha
    simpa using habs a ha
  refine ⟨h1, ?_⟩
  have hnot : ¬ q ≤ 0 := by omega
  rw [updateQuantity, if_neg hnot]
  conv_rhs => rw [← List.map_id items]
  apply List.map_congr_left
  intro a ha
  simp [habs a ha]

/-- C7: saving any cart and loading it back yields exactly the same
lines, with the same identifiers, names, prices, quantities and images,
in the same order. -/
theorem save_load_roundtrip (items : List CartItem) (_h : items ≠ []) :
    decodeItems (getStoredCart (saveCart items)) = some items :=
  decodeItems_encode items

/-- C8: getStoredCart maps a missing value and an unparseable value to
the empty array, but hands back a parseable non-cart payload unvalidated:
the stored JSON number 5 is returned as-is, and it is not a cart at all,
contradicting the documented schema-mismatch behaviour. -/
theorem getStoredCart_no_validation :
    getStoredCart StoredValue.absent = Json.arr [] ∧
    getStoredCart StoredValue.unparseable = Json.arr [] ∧
    getStoredCart (StoredValue.parsed (Json.num 5)) = Json.num 5 ∧
    decodeItems (Json.num 5) = none :=
  ⟨rfl, rfl, rfl, rfl⟩

/-- C9: a sequence of mutations keeps the surviving identifiers in
first-insertion order: addItem on a fresh productId appends at the end,
and each operation keeps the surviving identifiers a subsequence of the
previous ones extended by at most the added identifiers. -/
theorem insertion_order (items : List CartItem) (ops : List CartOp)
    (c : NewItem) (pid : String) (q : Int)
    (habs : ∀ l ∈ items, l.id ≠ c.id) :
    List.Sublist ((runOps items ops).map (fun i => i.id))
      (items.map (fun i => i.id) ++ addIds ops) ∧
    addItem items c
      = items ++ [{ id := c.id, name := c.name, price := c.price,
                    quantity := 1, image := c.image }] ∧
    List.Sublist ((removeItem items pid).map (fun i => i.id))
      (items.map (fun i => i.id)) ∧
    List.Sublist ((updateQuantity items pid q).map (fun i => i.id))
      (items.map (fun i => i.id)) :=
  ⟨runOps_ids_sublist ops items, addItem_not_found items c habs,
   removeItem_ids_sublist items pid, updateQuantity_ids_sublist items pid q⟩

/-- C10: updateQuantity with a positive quantity on a present productId
is a frame-preserving update: the cart keeps the same length, every line
keeps its identifier, name, price and image, lines with other
identifiers keep their quantity, and the matching line's quantity
becomes exactly the given value. -/
theorem updateQuantity_frame (items : List CartItem) (pid : String) (q : Int)
    (hq : 1 ≤ q) (_hmem : ∃ l ∈ items, l.id = pid) :
    List.Forall₂ (fun old new =>
      new.id = old.id ∧ new.name = old.name ∧ new.price = old.price ∧
      new.image = old.image ∧
      (old.id ≠ pid → new.quantity = old.quantity) ∧
      (old.id = pid → new.quantity = q))
      items (updateQuantity items pid q) := by
  clear _hmem
  have hnot : ¬ q ≤ 0 := by omega
  rw [updateQuantity, if_neg hnot]
  induction items with
  | nil => exact List.Forall₂.nil
  | cons i t ih =>
    rw [List.map_cons]
    refine List.Forall₂.cons ?_ ih
    by_cases h2 : i.id = pid
    · simp [h2]
    · simp [h2]

/-! Concrete evaluations of the theorems with hypotheses. -/

/-- C1 witness: starting from the empty cart, adding the pizza twice —
the second time under a promo name and price — yields one line with
quantity 2 carrying the first call's name, price and image. -/
theorem addItem_twice_merges_witness :
    pizzaPromo.id = pizzaNew.id ∧
    (∀ l ∈ ([] : List CartItem), l.id ≠ pizzaNew.id) ∧
    (addItem (addItem [] pizzaNew) pizzaPromo).filter
        (fun l => l.id == pizzaNew.id)
      = [{ id := "p1", name := "Pizza", price := 30, quantity := 2,
           image := none }] :=
  ⟨rfl, by decide, by
    have h := addItem_twice_merges [] pizzaNew pizzaPromo rfl (by decide)
    exact h⟩

/-- C3 witness: from the empty cart, adding the pizza, the soda and the
pizza again keeps the identifiers distinct; and from a one-line cart,
re-adding the present pizza id leaves the identifier list unchanged. -/
theorem addItem_sequences_unique_witness :
    (([] : List CartItem).map (fun i => i.id)).Nodup ∧
    (([pizzaNew, sodaNew, pizzaNew].foldl addItem ([] : List CartItem)).map
        (fun i => i.id)).Nodup ∧
    (([pizzaLine] : List CartItem).map (fun i => i.id)).Nodup ∧
    (∃ l ∈ [pizzaLine], l.id = pizzaPromo.id) ∧
    (addItem [pizzaLine] pizzaPromo).map (fun i => i.id)
      = ([pizzaLine] : List CartItem).map (fun i => i.id) :=
  ⟨by decide,
   (addItem_sequences_unique [] [pizzaNew, sodaNew, pizzaNew] pizzaNew
     (by decide)).1,
   by decide, by decide,
   (addItem_sequences_unique [pizzaLine] [] pizzaPromo (by decide)).2
     (by decide)⟩

/-- C4 witness: quantity -2 on the pizza removes its line. -/
theorem updateQuantity_nonpos_witness :
    ((-2 : Int) ≤ 0) ∧
    (updateQuantity [pizzaLine, sodaLine] "p1" (-2)
       = removeItem [pizzaLine, sodaLine] "p1" ∧
     ∀ l ∈ updateQuantity [pizzaLine, sodaLine] "p1" (-2), l.id ≠ "p1") :=
  ⟨by decide, updateQuantity_nonpos [pizzaLine, sodaLine] "p1" (-2) (by decide)⟩

/-- C5 witness: a concrete mutation and a concrete mutation sequence
keep all quantities at least 1. -/
theorem quantities_positive_witness :
    (∀ l ∈ [pizzaLine, sodaLine], 1 ≤ l.quantity) ∧
    ((∀ l ∈ applyOp [pizzaLine, sodaLine] (CartOp.update "p1" 3),
        1 ≤ l.quantity) ∧
     (∀ l ∈ runOps [pizzaLine, sodaLine]
        [CartOp.add pizzaNew, CartOp.remove "p2", CartOp.update "p1" (-1)],
        1 ≤ l.quantity)) :=
  ⟨by decide,
   quantities_positive [pizzaLine, sodaLine] (CartOp.update "p1" 3)
     [CartOp.add pizzaNew, CartOp.remove "p2", CartOp.update "p1" (-1)]
     (by decide)⟩

/-- C6 witness: removing and updating an id absent from the cart leaves
the cart unchanged. -/
theorem absent_id_noop_witness :
    (∀ l ∈ [pizzaLine, sodaLine], l.id ≠ "zz") ∧ ((1 : Int) ≤ 4) ∧
    (removeItem [pizzaLine, sodaLine] "zz" = [pizzaLine, sodaLine] ∧
     updateQuantity [pizzaLine, sodaLine] "zz" 4 = [pizzaLine, sodaLine]) :=
  ⟨by decide, by decide,
   absent_id_noop [pizzaLine, sodaLine] "zz" 4 (by decide) (by decide)⟩

/-- C7 witness: a concrete two-line cart survives the save and load
round trip unchanged. -/
theorem save_load_roundtrip_witness :
    ([pizzaLine, sodaLine] ≠ ([] : List CartItem)) ∧
    decodeItems (getStoredCart (saveCart [pizzaLine, sodaLine]))
      = some [pizzaLine, sodaLine] :=
  ⟨by decide, save_load_roundtrip [pizzaLine, sodaLine] (by decide)⟩

/-- C9 witness: a concrete cart and mutation sequence keep the
identifiers in first-insertion order, and adding a fresh soda id appends
its line at the end. -/
theorem insertion_order_witness :
    (∀ l ∈ [pizzaLine], l.id ≠ sodaNew.id) ∧
    (List.Sublist
        ((runOps [pizzaLine] [CartOp.add sodaNew, CartOp.remove "p1"]).map
          (fun i => i.id))
        (([pizzaLine] : List CartItem).map (fun i => i.id)
          ++ addIds [CartOp.add sodaNew, CartOp.remove "p1"]) ∧
     addItem [pizzaLine] sodaNew
       = [pizzaLine] ++ [{ id := sodaNew.id, name := sodaNew.name,
                           price := sodaNew.price, quantity := 1,
                           image := sodaNew.image }] ∧
     List.Sublist ((removeItem [pizzaLine] "p1").map (fun i => i.id))
       (([pizzaLine] : List CartItem).map (fun i => i.id)) ∧
     List.Sublist ((updateQuantity [pizzaLine] "p1" 5).map (fun i => i.id))
       (([pizzaLine] : List CartItem).map (fun i => i.id))) :=
  ⟨by decide,
   insertion_order [pizzaLine] [CartOp.add sodaNew, CartOp.remove "p1"]
     sodaNew "p1" 5 (by decide)⟩

/-- C10 witness: setting the soda quantity to 7 changes only that
line's quantity. -/
theorem updateQuantity_frame_witness :
    ((1 : Int) ≤ 7) ∧ (∃ l ∈ [pizzaLine, sodaLine], l.id = "p2") ∧
    List.Forall₂ (fun old new =>
      new.id = old.id ∧ new.name = old.name ∧ new.price = old.price ∧
      new.image = old.image ∧
      (old.id ≠ "p2" → new.quantity = old.quantity) ∧
      (old.id = "p2" → new.quantity = 7))
      [pizzaLine, sodaLine] (updateQuantity [pizzaLine, sodaLine] "p2" 7) :=
  ⟨by decide, by decide,
   updateQuantity_frame [pizzaLine, sodaLine] "p2" 7 (by decide) (by decide)⟩
